import Mathlib

/-!
Shallow embedding of the `react-hooks` repository: a counter hook
(`src/useCounter/useCounter.ts`), a form-state hook (`useForm`), a manual
fetch hook with a module-level cache (`useFetch` and `__localCache`), a
query-library fetch hook (`useFetchRickAndMorty`), and a persisted todo
list (`src/useTodo/useTodo.ts`, `src/useTodo/todoReducer.ts`).

JavaScript/host builtins that the hooks call (`fetch`, `JSON.parse`,
`localStorage`, React state cells) are modelled explicitly: network
behaviour is an `FetchOutcome` argument, state updates become lists of
applied states, and JavaScript truthiness is spelled out where the code
relies on it.
-/

namespace ReactHooks

/-- Model of a JSON value, restricted to the atomic kinds (null, boolean,
integer numeral, string).  No claim in this development depends on composite
values, and the JavaScript truthiness distinctions the code relies on
(`null`, `false`, `0`, and the empty string are falsy) already occur among
the atoms. -/
inductive Json where
  | null : Json
  | bool (b : Bool) : Json
  | num (n : Int) : Json
  | str (s : String) : Json
deriving DecidableEq

/-- JavaScript truthiness of a JSON value: `null`, `false`, `0` and `""` are
falsy, everything else is truthy.  (NaN is outside the integer model.) -/
def Json.truthy : Json → Bool
  | .null => false
  | .bool b => b
  | .num n => n != 0
  | .str s => s != ""

/-- JavaScript truthiness of a possibly-absent value: `undefined` (here
`none`) is falsy.  This is the test performed by `if (__localCache[url])` in
`src/unnamed/part_000`. -/
def truthyJs : Option Json → Bool
  | none => false
  | some v => v.truthy

/-- The process-wide `__localCache : Record<string, any>` of `useFetch`,
modelled as an association list from URL to JSON value. -/
abbrev Cache := List (String × Json)

/-- Reading `__localCache[url]`: the most recent binding for the key, or
`none` when the key is absent. -/
def cacheLookup (c : Cache) (u : String) : Option Json :=
  (c.find? (fun p => p.1 == u)).map (fun p => p.2)

/-- Writing `__localCache[url] = data`: a new binding is added in front and
shadows any earlier binding for the same key (observationally the same as
the JavaScript property update; entries are never removed). -/
def cacheInsert (c : Cache) (u : String) (v : Json) : Cache :=
  (u, v) :: c

/-- The `State<T>` record of `useFetch` in `src/unnamed/part_000`:
`{ data, loading, hasError, error }`. -/
structure FetchSt where
  data : Option Json
  loading : Bool
  hasError : Bool
  error : Option String
deriving DecidableEq

/-- The state installed by `useState`'s initializer and by `setLoadinState`:
`{ data: null, loading: true, hasError: false, error: null }`. -/
def loadingFetchState : FetchSt :=
  ⟨none, true, false, none⟩

/-- A value thrown by JavaScript code: either an `Error` instance carrying a
message, or some non-`Error` value (the case the `instanceof Error` test in
the catch branches rejects). -/
inductive JsThrown where
  | error (msg : String) : JsThrown
  | nonError : JsThrown
deriving DecidableEq

/-- The catch branch of `fetchData` in `useFetch`:
`error instanceof Error ? error.message : 'An error occurred'`. -/
def manualCatchMessage : JsThrown → String
  | .error m => m
  | .nonError => "An error occurred"

/-- What `await resp.json()` does: either produce a JSON value or throw a
parse failure. -/
inductive BodyResult where
  | json (v : Json) : BodyResult
  | parseFail (e : JsThrown) : BodyResult
deriving DecidableEq

/-- The behaviour of the network for one `fetch(url)` call: the promise
either rejects (transport failure) or resolves with a numeric status code
and a body. -/
inductive FetchOutcome where
  | reject (e : JsThrown) : FetchOutcome
  | response (status : Nat) (body : BodyResult) : FetchOutcome
deriving DecidableEq

/-- `resp.ok`: the status is in the successful range 200–299. -/
def respOk (status : Nat) : Bool :=
  200 ≤ status && status < 300

/-- One complete run of `fetchData`: the `setState` payloads applied in
order, the cache after the run, and whether `fetch` was called. -/
structure FetchRun where
  states : List FetchSt
  cacheAfter : Cache
  networkUsed : Bool
deriving DecidableEq

/-- The network path of `fetchData` (everything after the cache test):
`fetch`, the `resp.ok` check that throws `HTTP error! status: <code>`,
`resp.json()`, then — only `if (isMounted)` — the success `setState`;
the cache write `__localCache[url] = data` is unconditional.  Every throw
lands in the catch branch, which calls `setState` with the error state only
`if (isMounted)`; nothing escapes `fetchData`. -/
def fetchNetwork (isMounted : Bool) (url : String) (cache : Cache)
    (outcome : FetchOutcome) : FetchRun :=
  match outcome with
  | .reject e =>
      ⟨loadingFetchState ::
        (if isMounted then [⟨none, false, true, some (manualCatchMessage e)⟩] else []),
       cache, true⟩
  | .response status body =>
      if respOk status then
        match body with
        | .json d =>
            ⟨loadingFetchState ::
              (if isMounted then [⟨some d, false, false, none⟩] else []),
             cacheInsert cache url d, true⟩
        | .parseFail e =>
            ⟨loadingFetchState ::
              (if isMounted then [⟨none, false, true, some (manualCatchMessage e)⟩] else []),
             cache, true⟩
      else
        ⟨loadingFetchState ::
          (if isMounted then
            [⟨none, false, true, some ("HTTP error! status: " ++ toString status)⟩]
           else []),
         cache, true⟩

/-- The `fetchData` function of `useFetch` (`src/unnamed/part_000`): first
`setLoadinState()`, then the cache test `if (__localCache[url])` — a
JavaScript truthiness test — which on a hit applies
`{ data: __localCache[url], loading: false, hasError: false, error: null }`
and returns without touching the network; otherwise the network path runs. -/
def fetchData (isMounted : Bool) (url : String) (cache : Cache)
    (outcome : FetchOutcome) : FetchRun :=
  if truthyJs (cacheLookup cache url) then
    ⟨[loadingFetchState, ⟨cacheLookup cache url, false, false, none⟩], cache, false⟩
  else
    fetchNetwork isMounted url cache outcome

/-- The `useEffect` body of `useFetch`:
`let isMounted = true; fetchData(isMounted, url); return () => { isMounted = false; }`.
`isMounted` is a primitive boolean passed by value, so `fetchData` receives
the value at call time — always `true`.  The cleanup (run on unmount or on a
URL change) reassigns only the closure variable, which `fetchData` never
reads again; `cleanupRanBeforeResolve` therefore does not reach the
`isMounted` parameter. -/
def useFetchEffect (url : String) (cache : Cache) (outcome : FetchOutcome)
    (cleanupRanBeforeResolve : Bool) : FetchRun :=
  let _isMountedClosureVar : Bool := !cleanupRanBeforeResolve
  fetchData true url cache outcome

/-- The states of `useFetch` visible to a component: the `useState`
initializer, plus every `setState` payload of some `fetchData` run. -/
inductive ManualReachable : FetchSt → Prop where
  | initial : ManualReachable ⟨none, true, false, none⟩
  | applied (m : Bool) (url : String) (cache : Cache) (outcome : FetchOutcome)
      (s : FetchSt) (hs : s ∈ (fetchData m url cache outcome).states) :
      ManualReachable s

/-! The counter hook, `src/useCounter/useCounter.ts`. -/

/-- The operations returned by `useCounter`; the JavaScript defaults are
`initialState = 10` and `factor = 1`. -/
inductive CounterOp where
  | increment (factor : Int) : CounterOp
  | decrement (factor : Int) : CounterOp
  | reset : CounterOp
deriving DecidableEq

/-- Default initial value of `useCounter`. -/
def useCounterDefaultInitial : Int := 10

/-- Default `factor` of `increment` and `decrement`. -/
def counterDefaultFactor : Int := 1

/-- One operation of `useCounter`: `increment` adds the factor to the
current value, `decrement` subtracts it, `reset` installs the
`initialState` closed over at hook creation. -/
def applyCounterOp (initialState : Int) (current : Int) : CounterOp → Int
  | .increment factor => current + factor
  | .decrement factor => current - factor
  | .reset => initialState

/-- The counter value after a sequence of operations, starting from the
hook's initial value. -/
def runCounter (initialState : Int) (ops : List CounterOp) : Int :=
  ops.foldl (applyCounterOp initialState) initialState

/-! The query-library fetch hook, `useFetchRickAndMorty` in
`src/unnamed/part_000`. -/

/-- The `retry` option of the query library: `number | boolean`. -/
inductive RetryOpt where
  | num (n : Nat) : RetryOpt
  | bool (b : Bool) : RetryOpt
deriving DecidableEq

/-- The `QueryConfig` parameter of `useFetchRickAndMorty`; the optional
fields are `none` when the caller omits them. -/
structure QueryConfig where
  url : String
  queryKey : Option (List String) := none
  staleTime : Option Nat := none
  gcTime : Option Nat := none
  retry : Option RetryOpt := none
  retryDelay : Option Nat := none

/-- The options record `useFetchRickAndMorty` hands to `useQuery`
(the `queryFn` itself excluded). -/
structure UseQueryOpts where
  queryKey : List String
  staleTime : Nat
  gcTime : Nat
  retry : RetryOpt
  retryDelay : Nat
  enabled : Bool
  refetchOnWindowFocus : Bool
deriving DecidableEq

/-- The option construction of `useFetchRickAndMorty`: destructuring
defaults `staleTime = 1000*60*5`, `gcTime = 1000*60*30`, `retry = 3`,
`retryDelay = 1000`; `queryKey ?? [url]`; `enabled: !!url` (string
truthiness: false exactly for the empty string); and
`refetchOnWindowFocus: false`. -/
def useQueryOptionsOf (cfg : QueryConfig) : UseQueryOpts where
  queryKey := cfg.queryKey.getD [cfg.url]
  staleTime := cfg.staleTime.getD (1000 * 60 * 5)
  gcTime := cfg.gcTime.getD (1000 * 60 * 30)
  retry := cfg.retry.getD (.num 3)
  retryDelay := cfg.retryDelay.getD 1000
  enabled := cfg.url != ""
  refetchOnWindowFocus := false

/-- The part of the query-library result that `useFetchRickAndMorty`
reads: `{ data, isLoading, isError, error }`; `data` is `none` when the
library reports `undefined`. -/
structure TanQueryResult where
  data : Option Json
  isLoading : Bool
  isError : Bool
  error : Option String

/-- The `QueryResponse<T>` record returned by `useFetchRickAndMorty`:
`{ data, isLoading, haveError, error }`. -/
structure QueryResponse where
  data : Option Json
  isLoading : Bool
  haveError : Bool
  error : Option String

/-- The result mapping at the end of `useFetchRickAndMorty`:
`data: query.data ?? null` (with `Option`, `undefined` and `null` are both
`none`, so this is the identity), `isLoading: query.isLoading`,
`haveError: query.isError`, `error: query.error`. -/
def useFetchRickAndMortyResult (q : TanQueryResult) : QueryResponse :=
  ⟨q.data, q.isLoading, q.isError, q.error⟩

/-! The form-state hook, `useForm` in `src/unnamed/part_000`.  A JavaScript
object is modelled as an association list in insertion order. -/

/-- The update `{ ...current, [name]: value }` performed by
`onInputChange`: if the key already exists it keeps its position and gets
the new value, otherwise the pair is appended. -/
def jsSpreadSet (current : List (String × String)) (name value : String) :
    List (String × String) :=
  if current.any (fun p => p.1 == name) then
    current.map (fun p => if p.1 == name then (name, value) else p)
  else
    current ++ [(name, value)]

/-- The operations of `useForm`: an input-change event carrying the
`name`/`value` pair of its target, or `onResetForm`. -/
inductive FormOp where
  | change (name value : String) : FormOp
  | resetForm : FormOp
deriving DecidableEq

/-- One operation of `useForm`: `onInputChange` merges `[name]: value` into
the current state; `onResetForm` installs the original `form` argument
(by reference, no copy). -/
def applyFormOp (form state : List (String × String)) : FormOp → List (String × String)
  | .change n v => jsSpreadSet state n v
  | .resetForm => form

/-- The form state after a sequence of operations, starting from the
initial record. -/
def runForm (form : List (String × String)) (ops : List FormOp) :
    List (String × String) :=
  ops.foldl (applyFormOp form) form

/-- The set of keys of a form state. -/
def formKeys (state : List (String × String)) : Finset String :=
  (state.map Prod.fst).toFinset

/-- How one operation transforms the key set: a change event inserts its
name, a reset restores the key set of the initial record. -/
def formKeysAfter (formK : Finset String) (ks : Finset String) : FormOp → Finset String
  | .change n _ => insert n ks
  | .resetForm => formK

/-! The todo list, `src/useTodo/useTodo.ts` and
`src/useTodo/todoReducer.ts`. -/

/-- The `Todo` record: `{ id: number, todo: string, done: boolean }`. -/
structure Todo where
  id : Int
  todo : String
  done : Bool
deriving DecidableEq

/-- The actions dispatched to `todoReducer`; `unknown` stands for any
unrecognized `action.type` (the reducer's `default` case). -/
inductive TodoAction where
  | add (payload : Todo) : TodoAction
  | delete (id : Int) : TodoAction
  | toggle (id : Int) : TodoAction
  | unknown : TodoAction
deriving DecidableEq

/-- The reducer of `src/useTodo/todoReducer.ts`: `add` appends the payload;
`delete` keeps the todos whose `id` differs from the payload; `toggle` maps
over the list flipping `done` on every todo whose `id` equals the payload;
the default case returns the state unchanged. -/
def todoReducer (state : List Todo) : TodoAction → List Todo
  | .add payload => state ++ [payload]
  | .delete i => state.filter (fun t => t.id ≠ i)
  | .toggle i => state.map (fun t => if t.id = i then { t with done := !t.done } else t)
  | .unknown => state

/-- The `initialState` of `todoReducer.ts`: the empty list. -/
def todoInitialState : List Todo := []

/-! A model of the JavaScript builtin `JSON.parse`, restricted to the
values the todo hook itself persists: arrays of
`{"id": <integer>, "todo": <string>, "done": <boolean>}` objects with the
keys in that order (the order `JSON.stringify` emits for `Todo`), with
arbitrary whitespace and escape-free string contents.  On anything the
model does not cover it fails, as `JSON.parse` does on malformed input;
success of the model implies success of `JSON.parse` on the same text. -/

/-- Skip JSON whitespace. -/
def skipWs (cs : List Char) : List Char :=
  cs.dropWhile (fun c => c = ' ' ∨ c = '\t' ∨ c = '\n' ∨ c = '\r')

/-- Consume an expected literal character sequence. -/
def expectLit : List Char → List Char → Option (List Char)
  | [], cs => some cs
  | l :: ls, c :: cs => if c = l then expectLit ls cs else none
  | _ :: _, [] => none

/-- Consume a decimal integer numeral with optional leading minus sign. -/
def parseIntLit (cs : List Char) : Option (Int × List Char) :=
  let core : List Char → Option (Nat × List Char) := fun cs =>
    let ds := cs.takeWhile Char.isDigit
    if ds.isEmpty then none
    else some (ds.foldl (fun acc d => 10 * acc + (d.toNat - 48)) 0, cs.dropWhile Char.isDigit)
  match cs with
  | '-' :: rest => (core rest).map (fun p => (-(p.1 : Int), p.2))
  | _ => (core cs).map (fun p => ((p.1 : Int), p.2))

/-- Consume the characters of a string literal after its opening quote, up
to the closing quote; escape sequences are outside the model. -/
def takeStringChars : List Char → Option (List Char × List Char)
  | [] => none
  | c :: rest =>
    if c = '"' then some ([], rest)
    else if c = '\\' then none
    else (takeStringChars rest).map (fun p => (c :: p.1, p.2))

/-- Consume a string literal including both quotes. -/
def parseStringLit (cs : List Char) : Option (String × List Char) :=
  match cs with
  | '"' :: rest => (takeStringChars rest).map (fun p => (String.mk p.1, p.2))
  | _ => none

/-- Consume `true` or `false`. -/
def parseBoolLit (cs : List Char) : Option (Bool × List Char) :=
  match expectLit ['t', 'r', 'u', 'e'] cs with
  | some rest => some (true, rest)
  | none =>
    match expectLit ['f', 'a', 'l', 's', 'e'] cs with
    | some rest => some (false, rest)
    | none => none

/-- Consume one `{"id": i, "todo": s, "done": b}` object. -/
def parseTodoObj (cs : List Char) : Option (Todo × List Char) := do
  let cs ← expectLit ['\x7b'] (skipWs cs)
  let cs ← expectLit ['"', 'i', 'd', '"'] (skipWs cs)
  let cs ← expectLit [':'] (skipWs cs)
  let (i, cs) ← parseIntLit (skipWs cs)
  let cs ← expectLit [','] (skipWs cs)
  let cs ← expectLit ['"', 't', 'o', 'd', 'o', '"'] (skipWs cs)
  let cs ← expectLit [':'] (skipWs cs)
  let (s, cs) ← parseStringLit (skipWs cs)
  let cs ← expectLit [','] (skipWs cs)
  let cs ← expectLit ['"', 'd', 'o', 'n', 'e', '"'] (skipWs cs)
  let cs ← expectLit [':'] (skipWs cs)
  let (b, cs) ← parseBoolLit (skipWs cs)
  let cs ← expectLit ['\x7d'] (skipWs cs)
  pure (⟨i, s, b⟩, cs)

/-- Consume one or more comma-separated todo objects; the fuel bounds the
number of items and is always supplied larger than the input length. -/
def parseTodoItems : Nat → List Char → Option (List Todo × List Char)
  | 0, _ => none
  | fuel + 1, cs => do
    let (t, rest) ← parseTodoObj cs
    match skipWs rest with
    | ',' :: rest2 =>
        let (ts, r) ← parseTodoItems fuel rest2
        pure (t :: ts, r)
    | rest2 => pure ([t], rest2)

/-- Parse a complete JSON array of todo objects, requiring the whole input
to be consumed. -/
def parseTodos (s : String) : Option (List Todo) :=
  match skipWs s.toList with
  | '[' :: rest =>
    match skipWs rest with
    | ']' :: tail => if skipWs tail = [] then some [] else none
    | body =>
      match parseTodoItems (body.length + 1) body with
      | some (ts, rest2) =>
        match skipWs rest2 with
        | ']' :: tail => if skipWs tail = [] then some ts else none
        | _ => none
      | none => none
  | _ => none

/-- The `init` function of `useTodo.ts`:
`JSON.parse(localStorage.getItem("todos") || "[]")`.  `getItem` yields
`null` for an absent key (modelled `none`); `null` and the empty string are
falsy, so both are replaced by `"[]"` before parsing.  `JSON.parse` is not
wrapped in any `try`/`catch`, so a parse failure is thrown out of `init`
(and hence out of the hook); the thrown `SyntaxError` is the `Except.error`
case. -/
def todoInit (stored : Option String) : Except String (List Todo) :=
  let s :=
    match stored with
    | none => "[]"
    | some c => if c = "" then "[]" else c
  match parseTodos s with
  | some l => .ok l
  | none => .error "SyntaxError: Unexpected token in JSON"

/-! Helper lemmas. -/

theorem cacheLookup_insert_self (c : Cache) (u : String) (v : Json) :
    cacheLookup (cacheInsert c u v) u = some v := by
  simp [cacheLookup, cacheInsert, List.find?]

/-- Every network-path run applies the loading state followed — only when
mounted — by one final state, and that final state has `loading = false`. -/
theorem fetchNetwork_states (m : Bool) (url : String) (cache : Cache)
    (o : FetchOutcome) :
    ∃ fin : FetchSt, fin.loading = false ∧
      (fetchNetwork m url cache o).states =
        loadingFetchState :: (if m then [fin] else []) := by
  rcases o with e | ⟨status, body⟩
  · exact ⟨⟨none, false, true, some (manualCatchMessage e)⟩, rfl, rfl⟩
  · by_cases hok : respOk status = true
    · rcases body with d | e2
      · exact ⟨⟨some d, false, false, none⟩, rfl, by simp [fetchNetwork, hok]⟩
      · exact ⟨⟨none, false, true, some (manualCatchMessage e2)⟩, rfl,
          by simp [fetchNetwork, hok]⟩
    · exact ⟨⟨none, false, true, some ("HTTP error! status: " ++ toString status)⟩, rfl,
        by simp [fetchNetwork, hok]⟩

/-- Any state applied during a `fetchData` run with `loading = true` is the
loading state, whose `data` is absent. -/
theorem fetchData_mem_states_loading (m : Bool) (url : String) (cache : Cache)
    (o : FetchOutcome) (s : FetchSt) (hs : s ∈ (fetchData m url cache o).states)
    (hl : s.loading = true) : s.data = none := by
  by_cases hc : truthyJs (cacheLookup cache url) = true
  · rw [fetchData, if_pos hc] at hs
    simp only [List.mem_cons, List.not_mem_nil, or_false] at hs
    rcases hs with rfl | rfl
    · rfl
    · simp at hl
  · rw [fetchData, if_neg hc] at hs
    obtain ⟨fin, hfin, hstates⟩ := fetchNetwork_states m url cache o
    rw [hstates] at hs
    cases m
    · simp only [Bool.false_eq_true, if_false, List.mem_singleton] at hs
      subst hs
      rfl
    · simp only [if_true, List.mem_cons, List.not_mem_nil, or_false] at hs
      rcases hs with rfl | rfl
      · rfl
      · rw [hfin] at hl
        exact absurd hl (by decide)

/-! Claim theorems. -/

/-- C6: CounterHook arithmetic — `increment(f)` adds `f` to the current
value, `decrement(f)` subtracts `f`, `reset()` restores the initial value
captured at creation no matter which operations preceded it; concretely,
starting at the default 10, `increment()` then `increment(5)` then
`decrement(3)` yields 13, and a subsequent `reset()` yields 10. -/
theorem useCounter_arithmetic (initialState current factor : Int) (ops : List CounterOp) :
    applyCounterOp initialState current (.increment factor) = current + factor
  ∧ applyCounterOp initialState current (.decrement factor) = current - factor
  ∧ runCounter initialState (ops ++ [.reset]) = initialState
  ∧ runCounter useCounterDefaultInitial
      [.increment counterDefaultFactor, .increment 5, .decrement 3] = 13
  ∧ runCounter useCounterDefaultInitial
      ([.increment counterDefaultFactor, .increment 5, .decrement 3] ++ [.reset]) = 10 := by
  refine ⟨rfl, rfl, ?_, by decide, by decide⟩
  rw [runCounter, List.foldl_append]
  rfl

/-- C7: QueryLibraryFetchHook configuration — with every optional parameter
omitted, the options handed to `useQuery` are `queryKey = [url]`,
`staleTime = 300000`, `gcTime = 1800000`, `retry = 3`, `retryDelay = 1000`;
for every configuration the query is enabled exactly when the URL is not
the empty (falsy) string, and `refetchOnWindowFocus` is always false. -/
theorem useFetchRickAndMorty_defaults (url : String) (cfg : QueryConfig) :
    useQueryOptionsOf { url := url } =
      ⟨[url], 300000, 1800000, .num 3, 1000, url != "", false⟩
  ∧ (useQueryOptionsOf cfg).enabled = (cfg.url != "")
  ∧ (useQueryOptionsOf cfg).refetchOnWindowFocus = false
  ∧ ((useQueryOptionsOf cfg).enabled = false ↔ cfg.url = "") := by
  refine ⟨rfl, rfl, rfl, ?_⟩
  simp [useQueryOptionsOf]

/-- C9: Todo reducer toggle involution — toggling the same id twice
restores the original list, and a single toggle with an id absent from the
list leaves the list unchanged. -/
theorem todoReducer_toggle_involution (l : List Todo) (i : Int) :
    todoReducer (todoReducer l (.toggle i)) (.toggle i) = l
  ∧ ((∀ t ∈ l, t.id ≠ i) → todoReducer l (.toggle i) = l) := by
  constructor
  · show ((l.map _).map _) = l
    rw [List.map_map]
    have h2 : ∀ t : Todo,
        (fun t : Todo => if t.id = i then { t with done := !t.done } else t)
          ((fun t : Todo => if t.id = i then { t with done := !t.done } else t) t) = t := by
      intro t
      rcases t with ⟨tid, ttext, tdone⟩
      by_cases h : tid = i <;> simp [h]
    calc (l.map _) = l.map id := List.map_congr_left (fun t _ => h2 t)
      _ = l := List.map_id l
  · intro h
    show l.map _ = l
    calc (l.map _) = l.map id :=
          List.map_congr_left (fun t ht => by simp [h t ht])
      _ = l := List.map_id l

/-- C9 witness: on the concrete list `[⟨1, "a", false⟩, ⟨2, "b", true⟩]`,
toggling id 5 twice restores the list, and one toggle with the absent id 5
already leaves it unchanged. -/
theorem todoReducer_toggle_involution_witness :
    todoReducer (todoReducer [⟨1, "a", false⟩, ⟨2, "b", true⟩] (.toggle 5)) (.toggle 5) =
      [⟨1, "a", false⟩, ⟨2, "b", true⟩]
  ∧ todoReducer [⟨1, "a", false⟩, ⟨2, "b", true⟩] (.toggle 5) =
      [⟨1, "a", false⟩, ⟨2, "b", true⟩] :=
  ⟨(todoReducer_toggle_involution [⟨1, "a", false⟩, ⟨2, "b", true⟩] 5).1,
   (todoReducer_toggle_involution [⟨1, "a", false⟩, ⟨2, "b", true⟩] 5).2 (by decide)⟩

/-- C10: Todo reducer under duplicate ids — a delete removes every todo
whose id matches (none survives) while keeping every non-matching todo, and
a toggle flips the `done` flag at every position whose id matches, not just
the first. -/
theorem todoReducer_duplicate_ids (l : List Todo) (i : Int) :
    (∀ t, t ∈ todoReducer l (.delete i) → t.id ≠ i)
  ∧ (∀ t, t ∈ l → t.id ≠ i → t ∈ todoReducer l (.delete i))
  ∧ (∀ j : Nat, (todoReducer l (.toggle i))[j]? =
      (l[j]?).map (fun t => if t.id = i then { t with done := !t.done } else t)) := by
  refine ⟨?_, ?_, ?_⟩
  · intro t ht
    exact (List.mem_filter.mp ht).2 |> fun h => by simpa using h
  · intro t ht hne
    exact List.mem_filter.mpr ⟨ht, by simpa using hne⟩
  · intro j
    simp [todoReducer]

/-- C10 witness: on a list where two todos share id 5, deleting id 5 keeps
the todo with id 7 and nothing with id 5, and toggling id 5 flips `done` at
both matching positions. -/
theorem todoReducer_duplicate_ids_witness :
    ((⟨7, "c", false⟩ : Todo).id ≠ 5)
  ∧ (⟨7, "c", false⟩ : Todo) ∈
      todoReducer [⟨5, "a", false⟩, ⟨5, "b", true⟩, ⟨7, "c", false⟩] (.delete 5)
  ∧ (todoReducer [⟨5, "a", false⟩, ⟨5, "b", true⟩, ⟨7, "c", false⟩] (.toggle 5))[0]? =
      (([⟨5, "a", false⟩, ⟨5, "b", true⟩, ⟨7, "c", false⟩] : List Todo)[0]?).map
        (fun t => if t.id = 5 then { t with done := !t.done } else t)
  ∧ (todoReducer [⟨5, "a", false⟩, ⟨5, "b", true⟩, ⟨7, "c", false⟩] (.toggle 5))[1]? =
      (([⟨5, "a", false⟩, ⟨5, "b", true⟩, ⟨7, "c", false⟩] : List Todo)[1]?).map
        (fun t => if t.id = 5 then { t with done := !t.done } else t) :=
  ⟨(todoReducer_duplicate_ids [⟨5, "a", false⟩, ⟨5, "b", true⟩, ⟨7, "c", false⟩] 5).1
      ⟨7, "c", false⟩ (by decide),
   (todoReducer_duplicate_ids [⟨5, "a", false⟩, ⟨5, "b", true⟩, ⟨7, "c", false⟩] 5).2.1
      ⟨7, "c", false⟩ (by decide) (by decide),
   (todoReducer_duplicate_ids [⟨5, "a", false⟩, ⟨5, "b", true⟩, ⟨7, "c", false⟩] 5).2.2 0,
   (todoReducer_duplicate_ids [⟨5, "a", false⟩, ⟨5, "b", true⟩, ⟨7, "c", false⟩] 5).2.2 1⟩

/-- C5: ManualFetchHook failure handling — with the component mounted and
no truthy cache entry for the URL, a transport failure, a non-2xx response,
or a JSON parse failure each ends the run in
`data = none, loading = false, hasError = true` with `error` the failure's
message (`HTTP error! status: <code>` for a non-2xx response) or the
fallback `An error occurred` for a thrown non-`Error` value carrying no
message; the 404 message contains the text `404`.  No branch of `fetchData`
escapes the internal `try`/`catch` (its model is a total function). -/
theorem useFetch_failure_handling (url : String) (cache : Cache) (e d : JsThrown)
    (status : Nat) (body : BodyResult)
    (hmiss : truthyJs (cacheLookup cache url) = false)
    (hbad : respOk status = false) :
    (fetchData true url cache (.reject e)).states =
      [loadingFetchState, ⟨none, false, true, some (manualCatchMessage e)⟩]
  ∧ (fetchData true url cache (.response status body)).states =
      [loadingFetchState, ⟨none, false, true, some ("HTTP error! status: " ++ toString status)⟩]
  ∧ (∀ s2 : Nat, respOk s2 = true →
      (fetchData true url cache (.response s2 (.parseFail d))).states =
        [loadingFetchState, ⟨none, false, true, some (manualCatchMessage d)⟩])
  ∧ (∃ pre post : String, "HTTP error! status: " ++ toString 404 = pre ++ "404" ++ post)
  ∧ manualCatchMessage .nonError = "An error occurred" := by
  refine ⟨?_, ?_, ?_, ⟨"HTTP error! status: ", "", by decide⟩, rfl⟩
  · simp [fetchData, hmiss, fetchNetwork]
  · simp [fetchData, hmiss, fetchNetwork, hbad]
  · intro s2 h2
    simp [fetchData, hmiss, fetchNetwork, h2]

/-- C5 witness: with an empty cache and a mounted component, a concrete
transport failure, a concrete 404 response, and a concrete parse failure
each end in the corresponding error state. -/
theorem useFetch_failure_handling_witness :
    (fetchData true "u" [] (.reject (.error "network down"))).states =
      [loadingFetchState, ⟨none, false, true, some "network down"⟩]
  ∧ (fetchData true "u" [] (.response 404 (.json (.num 1)))).states =
      [loadingFetchState, ⟨none, false, true, some "HTTP error! status: 404"⟩]
  ∧ (fetchData true "u" [] (.response 200 (.parseFail .nonError))).states =
      [loadingFetchState, ⟨none, false, true, some "An error occurred"⟩] := by
  have h := useFetch_failure_handling "u" [] (.error "network down") .nonError
    404 (.json (.num 1)) rfl rfl
  refine ⟨h.1, ?_, ?_⟩
  · have h2 := h.2.1
    rwa [show ("HTTP error! status: " ++ toString 404) = "HTTP error! status: 404" from rfl] at h2
  · exact h.2.2.1 200 rfl

/-- C4 counterexample: the URL `"u"` is present in the cache with the
cached JSON value `0`, yet the hook still issues a network request —
`if (__localCache[url])` is a truthiness test, so a falsy cached value is
treated as a miss, refuting the claim for arbitrary cached entries. -/
theorem useFetch_cache_hit_counterexample :
    cacheLookup [("u", Json.num 0)] "u" = some (Json.num 0)
  ∧ (fetchData true "u" [("u", Json.num 0)]
      (.response 200 (.json (.num 1)))).networkUsed = true := by
  exact ⟨rfl, rfl⟩

/-- C4 amended: for every URL whose cache entry holds a truthy value (not
`null`, `false`, `0`, or the empty string), the hook applies the cached
value with `loading = false` and never touches the network; and after one
successful fetch of a truthy value on a cache miss, a second run for the
same URL serves that value from the cache with no new network call. -/
theorem useFetch_cache_hit_truthy (url : String) (cache1 cache2 : Cache)
    (o1 o2 : FetchOutcome) (v d : Json)
    (h1 : cacheLookup cache1 url = some v) (h2 : v.truthy = true)
    (h3 : truthyJs (cacheLookup cache2 url) = false) (h4 : d.truthy = true) :
    fetchData true url cache1 o1 =
      ⟨[loadingFetchState, ⟨some v, false, false, none⟩], cache1, false⟩
  ∧ fetchData true url cache2 (.response 200 (.json d)) =
      ⟨[loadingFetchState, ⟨some d, false, false, none⟩], cacheInsert cache2 url d, true⟩
  ∧ fetchData true url (cacheInsert cache2 url d) o2 =
      ⟨[loadingFetchState, ⟨some d, false, false, none⟩], cacheInsert cache2 url d, false⟩ := by
  refine ⟨?_, ?_, ?_⟩
  · rw [fetchData, h1]
    simp [truthyJs, h2]
  · simp [fetchData, h3, fetchNetwork, respOk]
  · rw [fetchData, cacheLookup_insert_self]
    simp [truthyJs, h4]

/-- C4 witness: with `7` cached for `"u"`, a run serves `7` from the cache
without the network; on an empty cache a successful fetch of `"x"` caches
it, and a second run then serves `"x"` from the cache without the network. -/
theorem useFetch_cache_hit_truthy_witness :
    fetchData true "u" [("u", Json.num 7)] (.reject .nonError) =
      ⟨[loadingFetchState, ⟨some (Json.num 7), false, false, none⟩],
        [("u", Json.num 7)], false⟩
  ∧ fetchData true "u" [] (.response 200 (.json (.str "x"))) =
      ⟨[loadingFetchState, ⟨some (Json.str "x"), false, false, none⟩],
        cacheInsert [] "u" (.str "x"), true⟩
  ∧ fetchData true "u" (cacheInsert [] "u" (.str "x")) (.reject .nonError) =
      ⟨[loadingFetchState, ⟨some (Json.str "x"), false, false, none⟩],
        cacheInsert [] "u" (.str "x"), false⟩ :=
  useFetch_cache_hit_truthy "u" [("u", Json.num 7)] [] (.reject .nonError)
    (.reject .nonError) (.num 7) (.str "x") rfl rfl rfl rfl

/-- C1: the mount-status check of `useFetch` is ineffective.  `fetchData`
receives the primitive boolean `isMounted` by value at call time — always
`true` — so even when the cleanup runs before the response resolves
(`cleanupRanBeforeResolve = true`), the resolved data IS applied to the
instance's state (the run ends in the success state, not the state the
cleanup left); the successful response is also written into the shared
cache, which is the one part of the claim the code does honour. -/
theorem useFetch_unmounted_result_applied :
    (useFetchEffect "https://example.com/a" []
        (.response 200 (.json (.str "payload"))) true).states =
      [loadingFetchState, ⟨some (Json.str "payload"), false, false, none⟩]
  ∧ cacheLookup (useFetchEffect "https://example.com/a" []
        (.response 200 (.json (.str "payload"))) true).cacheAfter
      "https://example.com/a" = some (Json.str "payload") := by
  exact ⟨by decide, by decide⟩

/-- C8: FetchState invariant — every state of `useFetch` reachable from the
initializer or applied by any `fetchData` run with `loading = true` has
`data = none`; and the result mapping of `useFetchRickAndMorty` preserves
the same invariant from the underlying query-library result (`data` is
republished as `query.data ?? null` and `isLoading` verbatim). -/
theorem fetch_loading_implies_data_absent (s : FetchSt) (hs : ManualReachable s)
    (hl : s.loading = true) (q : TanQueryResult)
    (hq : q.isLoading = true → q.data = none)
    (hql : (useFetchRickAndMortyResult q).isLoading = true) :
    s.data = none ∧ (useFetchRickAndMortyResult q).data = none := by
  constructor
  · cases hs with
    | initial => rfl
    | applied m url cache outcome s hmem =>
        exact fetchData_mem_states_loading m url cache outcome s hmem hl
  · exact hq hql

/-- C8 witness: the initial state of `useFetch` and a loading query-library
result both satisfy the invariant. -/
theorem fetch_loading_implies_data_absent_witness :
    (⟨none, true, false, none⟩ : FetchSt).data = none
  ∧ (useFetchRickAndMortyResult ⟨none, true, false, none⟩).data = none :=
  fetch_loading_implies_data_absent ⟨none, true, false, none⟩ .initial rfl
    ⟨none, true, false, none⟩ (fun _ => rfl) rfl

/-- C2 counterexample: the stored content `"not json"` is non-empty and not
valid JSON; `init` does not degrade to the empty list but throws the parse
failure out of the hook (the `Except.error` case), refuting both the
empty-list fallback and the no-escape part of the claim. -/
theorem useTodo_init_malformed_escapes :
    (todoInit (some "not json")).isOk = false
  ∧ todoInit (some "not json") = .error "SyntaxError: Unexpected token in JSON" :=
  ⟨rfl, rfl⟩

/-- C2 amended: an absent key or empty-string content starts the list
empty; content that parses as a JSON todo array starts the list as that
array; but malformed non-empty content makes `JSON.parse` throw, and —
there being no `try`/`catch` in `init` — the failure escapes the hook
instead of degrading to the empty list. -/
theorem useTodo_init_behaviour (c : String) (l : List Todo)
    (h : parseTodos c = some l) :
    todoInit none = .ok []
  ∧ todoInit (some "") = .ok []
  ∧ todoInit (some c) = .ok l
  ∧ (todoInit (some "not json")).isOk = false := by
  refine ⟨rfl, rfl, ?_, rfl⟩
  have hc : c ≠ "" := by
    intro he
    rw [he] at h
    exact Option.noConfusion h
  simp [todoInit, hc, h]

/-- C2 witness: a concrete persisted array round-trips through `init`, and
the other branches hold at their concrete inputs. -/
theorem useTodo_init_behaviour_witness :
    todoInit none = .ok []
  ∧ todoInit (some "") = .ok []
  ∧ todoInit (some "[\x7b\"id\":1,\"todo\":\"a\",\"done\":false\x7d]") =
      .ok [⟨1, "a", false⟩]
  ∧ (todoInit (some "not json")).isOk = false :=
  useTodo_init_behaviour "[\x7b\"id\":1,\"todo\":\"a\",\"done\":false\x7d]"
    [⟨1, "a", false⟩] (by decide)

/-- C3 counterexample: starting from `{email, password}`, a single
input-change event whose `name` is `"extra"` — a key outside the initial
record — adds that key, so the key set no longer equals the initial key
set, refuting the claimed invariant. -/
theorem useForm_keys_counterexample :
    ¬ (formKeys (runForm [("email", ""), ("password", "")] [.change "extra" "1"]) =
       formKeys [("email", ""), ("password", "")]) := by
  decide

theorem formKeys_jsSpreadSet (s : List (String × String)) (n v : String) :
    formKeys (jsSpreadSet s n v) = insert n (formKeys s) := by
  by_cases h : s.any (fun p => p.1 == n)
  · rw [jsSpreadSet, if_pos h]
    have hmem : n ∈ formKeys s := by
      rcases List.any_eq_true.mp h with ⟨p, hp, hpn⟩
      rw [formKeys, List.mem_toFinset, List.mem_map]
      exact ⟨p, hp, by simpa using hpn⟩
    have hkeys : formKeys (s.map (fun p => if p.1 == n then (n, v) else p)) = formKeys s := by
      rw [formKeys, formKeys, List.map_map]
      congr 1
      apply List.map_congr_left
      intro p hp
      by_cases hpn : p.1 == n
      · simp only [Function.comp_apply, hpn, if_pos]
        exact (by simpa using hpn : p.1 = n).symm
      · have hne : p.1 ≠ n := by simpa using hpn
        simp [Function.comp_apply, hne]
    rw [hkeys, Finset.insert_eq_self.mpr hmem]
  · rw [jsSpreadSet, if_neg h, formKeys, formKeys, List.map_append, List.toFinset_append]
    ext a
    simp [or_comm]

theorem runForm_keys_foldl (form : List (String × String)) (ops : List FormOp) :
    ∀ s, formKeys (ops.foldl (applyFormOp form) s) =
      ops.foldl (formKeysAfter (formKeys form)) (formKeys s) := by
  induction ops with
  | nil => intro s; rfl
  | cons op ops ih =>
      intro s
      rw [List.foldl_cons, List.foldl_cons, ih]
      congr 1
      cases op with
      | change n v => exact formKeys_jsSpreadSet s n v
      | resetForm => rfl

theorem formKeysAfter_foldl_self (K : Finset String) :
    ∀ ops : List FormOp, (∀ n v, FormOp.change n v ∈ ops → n ∈ K) →
      ops.foldl (formKeysAfter K) K = K := by
  intro ops
  induction ops with
  | nil => intro _; rfl
  | cons op ops ih =>
      intro hall
      rw [List.foldl_cons]
      have hstep : formKeysAfter K K op = K := by
        cases op with
        | change n v =>
            exact Finset.insert_eq_self.mpr (hall n v (List.mem_cons_self _ _))
        | resetForm => rfl
      rw [hstep]
      exact ih (fun n v hmem => hall n v (List.mem_cons_of_mem _ hmem))

/-- C3 amended: the key set of the form state equals the key set of the
initial record extended, step by step, by the name of every change event
since the last reset (a reset restores exactly the initial keys); in
particular the key set equals that of the initial record whenever every
event's name is already one of its keys — but not otherwise. -/
theorem useForm_key_evolution (form : List (String × String)) (ops : List FormOp) :
    formKeys (runForm form ops) =
      ops.foldl (formKeysAfter (formKeys form)) (formKeys form)
  ∧ ((∀ n v, FormOp.change n v ∈ ops → n ∈ formKeys form) →
      formKeys (runForm form ops) = formKeys form) := by
  constructor
  · exact runForm_keys_foldl form ops form
  · intro hall
    rw [runForm, runForm_keys_foldl form ops form]
    exact formKeysAfter_foldl_self (formKeys form) ops hall

/-- C3 witness: on `{email, password}` with events whose names are the
existing keys (a change, a reset, a change), the key set evolves by the
event fold and ends equal to the initial key set. -/
theorem useForm_key_evolution_witness :
    formKeys (runForm [("email", ""), ("password", "")]
        [.change "email" "a@b.com", .resetForm, .change "password" "y"]) =
      ([FormOp.change "email" "a@b.com", .resetForm, .change "password" "y"]).foldl
        (formKeysAfter (formKeys [("email", ""), ("password", "")]))
        (formKeys [("email", ""), ("password", "")])
  ∧ formKeys (runForm [("email", ""), ("password", "")]
        [.change "email" "a@b.com", .resetForm, .change "password" "y"]) =
      formKeys [("email", ""), ("password", "")] :=
  ⟨(useForm_key_evolution [("email", ""), ("password", "")]
      [.change "email" "a@b.com", .resetForm, .change "password" "y"]).1,
   (useForm_key_evolution [("email", ""), ("password", "")]
      [.change "email" "a@b.com", .resetForm, .change "password" "y"]).2 (by
        intro n v h
        simp only [List.mem_cons, List.not_mem_nil, or_false] at h
        rcases h with h | h | h
        · cases h
          decide
        · exact FormOp.noConfusion h
        · cases h
          decide)⟩

end ReactHooks
